import Mathlib

/-
  Verification of the SPOS scheduler core (os_scheduler.c, revision with the
  strategy factory and stack seeding).  The C sources are shallowly embedded:
  machine bytes are Nat values taken modulo 256 where the C uses uint8_t,
  process-stack memory is a total function from addresses to byte values, and
  the global scheduler state (process table, current process id, hardware SP,
  SREG, the OCIE2A bit of TIMSK2, and the critical-section nesting counter) is
  an explicit record threaded through every operation.

  Constants that live in headers not present in the sources
  (PROCESS_STACK_BOTTOM, BOTTOM_OF_ISR_STACK, MAX_NUMBER_OF_PROCESSES,
  INVALID_PROCESS, the SchedulingStrategy enum) are represented as parameters
  or, where a fixed representation is needed, are modelled from the spec and
  marked as such.  MAX_NUMBER_OF_PROCESSES is the length of the process-table
  list; INVALID_PROCESS is represented by the value none of an Option result.
-/

namespace SPOS

/- Process states, from the OS_PS_ constants used throughout os_scheduler.c. -/
inductive ProcessState
  | OS_PS_UNUSED
  | OS_PS_READY
  | OS_PS_RUNNING
  | OS_PS_BLOCKED
deriving DecidableEq

/- One slot of the process table (struct Process): program entry pointer
   (0 represents the C NULL), priority, state, saved stack pointer and the
   stored stack checksum.  Pointers and addresses are Nat. -/
structure Process where
  program : Nat
  priority : Nat
  state : ProcessState
  sp : Nat
  checksum : Nat
deriving DecidableEq

def defaultProcess : Process :=
  { program := 0, priority := 0, state := ProcessState.OS_PS_UNUSED, sp := 0, checksum := 0 }

/- The global scheduler state.  procs embeds the array os_processes (its
   length is MAX_NUMBER_OF_PROCESSES); mem is the byte memory holding the
   process stacks; sreg is the AVR status register byte; ocie2a is the
   timer-compare interrupt enable bit OCIE2A of TIMSK2; halted records a call
   of os_error; returned records that restoreContext has handed control back
   to a process. -/
structure OsState where
  procs : List Process
  currentProc : Nat
  SP : Nat
  mem : Nat → Nat
  sreg : Nat
  ocie2a : Bool
  criticalSectionCount : Nat
  halted : Option String
  returned : Bool

/- os_getProcessSlot(pid) is os_processes + pid, an unchecked array access;
   reads outside the table are undefined behaviour in the C and are modelled
   by the default slot. -/
def getSlot (procs : List Process) (i : Nat) : Process :=
  procs.getD i defaultProcess

def setSlot (procs : List Process) (i : Nat) (p : Process) : List Process :=
  procs.set i p

/- The while loop of os_getStackChecksum: starting at address p with
   accumulator acc, XOR the bytes of the next n addresses into acc. -/
def checksumLoopAux (mem : Nat → Nat) : Nat → Nat → Nat → Nat
  | _, acc, 0 => acc
  | p, acc, n + 1 => checksumLoopAux mem (p + 1) (acc ^^^ mem p) n

/- Body of os_getStackChecksum: the initial pointer is the current stack
   pointer minus 35, the accumulator starts as the byte AT that address, and
   the loop XORs every byte from that address up to (excluding) the current
   stack pointer.  The loop runs sp - (sp - 35) times, i.e. 35 times whenever
   sp is at least 35. -/
def stackChecksumCore (mem : Nat → Nat) (sp : Nat) : Nat :=
  checksumLoopAux mem (sp - 35) (mem (sp - 35)) (sp - (sp - 35))

/- os_getStackChecksum(pid): reads the stored stack pointer of slot pid and
   folds over the fixed 35-byte window below it. -/
def os_getStackChecksum (procs : List Process) (mem : Nat → Nat) (pid : Nat) : Nat :=
  stackChecksumCore mem (getSlot procs pid).sp

/- Modelled from the spec: the XOR fold over every byte in the address range
   from base (inclusive) to top (exclusive).  This is the checksum the
   specification describes, used to compare against the implementation. -/
def xorFoldAux (mem : Nat → Nat) : Nat → Nat → Nat
  | _, 0 => 0
  | a, n + 1 => mem a ^^^ xorFoldAux mem (a + 1) n

def xorFold (mem : Nat → Nat) (base top : Nat) : Nat :=
  xorFoldAux mem base (top - base)

/- os_enterCriticalSection.  Faithful to the source, bugs included:
   the snapshot shifts (SREG AND 0x80) right by the VALUE of SREG (the source
   writes >> SREG instead of >> 7), the mask SREG AND 0b10000000 KEEPS the
   global interrupt enable bit and clears the other flags, the counter is a
   uint8_t and wraps at 256, and the masking of OCIE2A in TIMSK2 is only a
   TODO comment in the source, so ocie2a is not touched.  Shifts whose count
   exceeds the int width are undefined behaviour in C; Nat semantics (result
   0) is used. -/
def os_enterCriticalSection (s : OsState) : OsState :=
  let gieb := (s.sreg &&& (1 <<< 7)) >>> s.sreg
  let s1 : OsState := { s with sreg := s.sreg &&& 0b10000000 }
  let s2 : OsState := { s1 with criticalSectionCount := (s1.criticalSectionCount + 1) % 256 }
  { s2 with sreg := s2.sreg ||| gieb }

/- os_leaveCriticalSection.  When the counter is 0 it clamps and returns
   without touching anything else; otherwise it decrements.  The re-arming of
   OCIE2A when the counter reaches 0 is only a TODO comment in the source, so
   ocie2a is not touched here either. -/
def os_leaveCriticalSection (s : OsState) : OsState :=
  if s.criticalSectionCount = 0 then { s with criticalSectionCount := 0 }
  else
    let gieb := (s.sreg &&& (1 <<< 7)) >>> s.sreg
    let s1 : OsState := { s with sreg := s.sreg &&& 0b10000000 }
    let s2 : OsState := { s1 with criticalSectionCount := s1.criticalSectionCount - 1 }
    { s2 with sreg := s2.sreg ||| gieb }

/- The slot-search loop of os_exec: starting from g, advance while the slot
   state differs from OS_PS_UNUSED; leaving the table returns INVALID_PROCESS
   (none).  The fuel argument counts the remaining slots, so the fuel runs out
   exactly when g reaches the table length. -/
def findFreeAux (procs : List Process) : Nat → Nat → Option Nat
  | _, 0 => none
  | g, n + 1 =>
    match procs[g]? with
    | none => none
    | some p =>
      if p.state = ProcessState.OS_PS_UNUSED then some g else findFreeAux procs (g + 1) n

/- In the source the loop variable free_process_slot is READ UNINITIALISED;
   its unspecified initial value is therefore an explicit parameter (start)
   of os_exec below.  A start value outside the table would be an
   out-of-bounds read in the C; it is modelled as not finding a slot. -/
def findFreeSlotFrom (procs : List Process) (start : Nat) : Option Nat :=
  findFreeAux procs start (procs.length - start)

/- A single byte store; uint8_t stores truncate modulo 256. -/
def memWrite (mem : Nat → Nat) (a v : Nat) : Nat → Nat :=
  fun x => if x = a then v % 256 else mem x

/- The for loop of os_exec writing 33 zero placeholder bytes. -/
def seedZeros : (Nat → Nat) → Nat → Nat → (Nat → Nat)
  | mem, _, 0 => mem
  | mem, a, n + 1 => seedZeros (memWrite mem a 0) (a + 1) n

/- os_exec(program, priority), from the source revision with stack seeding.
   Parameters standing for symbols defined outside the given sources:
   stackBottom embeds the macro PROCESS_STACK_BOTTOM, pcReg the value of the
   symbol PC that the source truncates into the seeded bytes, and start the
   unspecified initial value of the uninitialised local free_process_slot.
   The result none embeds INVALID_PROCESS.  Note the two INVALID paths return
   WITHOUT calling os_leaveCriticalSection, exactly as in the source, and the
   second seeded byte is ((uint8_t)PC) >> 8, the cast applied before the
   shift. -/
def os_exec (stackBottom : Nat → Nat) (pcReg : Nat) (start : Nat)
    (program : Nat) (priority : Nat) (s : OsState) : Option Nat × OsState :=
  let s0 := os_enterCriticalSection s
  match findFreeSlotFrom s0.procs start with
  | none => (none, s0)
  | some i =>
    if program = 0 then (none, s0)
    else
      let p0 := getSlot s0.procs i
      let p1 : Process :=
        { p0 with program := program, priority := priority,
                  state := ProcessState.OS_PS_READY }
      let b := stackBottom i
      let m1 := memWrite s0.mem b (pcReg % 256)
      let m2 := memWrite m1 (b + 1) ((pcReg % 256) >>> 8)
      let m3 := seedZeros m2 (b + 2) 33
      let p2 : Process := { p1 with sp := b + 35 }
      let procs1 := setSlot s0.procs i p2
      let p3 : Process := { p2 with checksum := os_getStackChecksum procs1 m3 i }
      let s1 : OsState := { s0 with procs := setSlot s0.procs i p3, mem := m3 }
      let s2 := os_leaveCriticalSection s1
      (some i, s2)

/- The bookkeeping prefix of ISR(TIMER2_COMPA_vect): after saveContext (an
   external assembly macro whose effect is that the SP field already holds
   the hardware stack pointer of the suspended process), the ISR stores SP
   into the current slot, switches SP to the ISR stack, marks the current
   slot READY and STORES a freshly computed checksum into it. -/
def isrBookkeep (isrStackBottom : Nat) (s : OsState) : OsState :=
  let pA : Process := { getSlot s.procs s.currentProc with sp := s.SP }
  let s1 : OsState := { s with procs := setSlot s.procs s.currentProc pA }
  let s2 : OsState := { s1 with SP := isrStackBottom }
  let pB : Process := { getSlot s2.procs s2.currentProc with state := ProcessState.OS_PS_READY }
  let s3 : OsState := { s2 with procs := setSlot s2.procs s2.currentProc pB }
  let pC : Process := { getSlot s3.procs s3.currentProc with
    checksum := os_getStackChecksum s3.procs s3.mem s3.currentProc }
  { s3 with procs := setSlot s3.procs s3.currentProc pC }

/- The successor chosen by the active strategy, applied exactly as in the
   source: to the table after the bookkeeping writes, with the old value of
   currentProc as second argument.  The strategy bodies live in the missing
   file os_scheduling_strategies.c, so the select function is a parameter. -/
def isrChosen (select : List Process → Nat → Nat) (isrStackBottom : Nat) (s : OsState) : Nat :=
  select (isrBookkeep isrStackBottom s).procs (isrBookkeep isrStackBottom s).currentProc

/- ISR(TIMER2_COMPA_vect), line by line.  After the bookkeeping the chosen
   slot becomes currentProc and is marked RUNNING, SP is switched to its
   stored stack pointer, the task-manager sidecar runs (external collaborators
   with no process-table effect), and restoreContext pops the registers and
   returns control to the chosen process (returned := true).  The checksum
   comparison of the source stands AFTER restoreContext; since the ISR is
   naked and restoreContext ends with a return instruction, those lines are
   unreachable, which the guard on returned makes explicit. -/
def isrTick (select : List Process → Nat → Nat) (isrStackBottom : Nat) (s : OsState) : OsState :=
  let s4 := isrBookkeep isrStackBottom s
  let next := select s4.procs s4.currentProc
  let s5 : OsState := { s4 with currentProc := next }
  let pR : Process := { getSlot s5.procs next with state := ProcessState.OS_PS_RUNNING }
  let s6 : OsState := { s5 with procs := setSlot s5.procs next pR }
  let s7 : OsState := { s6 with SP := (getSlot s6.procs next).sp }
  let s8 : OsState := { s7 with returned := true }
  if s8.returned then s8
  else if (getSlot s8.procs next).checksum ≠ os_getStackChecksum s8.procs s8.mem next
    then { s8 with halted := some "Stack overflow detected" }
    else s8

/- The five strategy function pointers returned by the factory.  Their bodies
   are in the missing os_scheduling_strategies.c; for the factory claim only
   the identity of the returned pointer matters. -/
inductive StrategyFnPtr
  | os_Scheduler_Even
  | os_Scheduler_Random
  | os_Scheduler_RunToCompletion
  | os_Scheduler_RoundRobin
  | os_Scheduler_InactiveAging
deriving DecidableEq

/- Modelled from the spec: the SchedulingStrategy enum constants from the
   missing header os_scheduling_strategies.h; C default enumeration assigns
   0..4 in declaration order. -/
def OS_SS_EVEN : Nat := 0
def OS_SS_RANDOM : Nat := 1
def OS_SS_RUN_TO_COMPLETION : Nat := 2
def OS_SS_ROUND_ROBIN : Nat := 3
def OS_SS_INACTIVE_AGING : Nat := 4

/- _schedulingStrategyFnFactory: the switch over the strategy tag; the
   default branch returns the Even select function. -/
def schedulingStrategyFnFactory (strategy : Nat) : StrategyFnPtr :=
  if strategy = OS_SS_EVEN then StrategyFnPtr.os_Scheduler_Even
  else if strategy = OS_SS_RANDOM then StrategyFnPtr.os_Scheduler_Random
  else if strategy = OS_SS_RUN_TO_COMPLETION then StrategyFnPtr.os_Scheduler_RunToCompletion
  else if strategy = OS_SS_ROUND_ROBIN then StrategyFnPtr.os_Scheduler_RoundRobin
  else if strategy = OS_SS_INACTIVE_AGING then StrategyFnPtr.os_Scheduler_InactiveAging
  else StrategyFnPtr.os_Scheduler_Even

/- The process-table invariant of the spec: exactly one slot is RUNNING and
   currentProc indexes it. -/
def SingleRunningInv (s : OsState) : Prop :=
  s.currentProc < s.procs.length ∧
  ∀ i, i < s.procs.length →
    ((getSlot s.procs i).state = ProcessState.OS_PS_RUNNING ↔ i = s.currentProc)

/- Concrete instances used in the closed evaluations below. -/

/- A concrete stack layout: 40 bytes of stack per slot, slot i starting at
   address 100 + 40 i; stands for PROCESS_STACK_BOTTOM. -/
def sb0 : Nat → Nat := fun i => 100 + 40 * i

def memZero : Nat → Nat := fun _ => 0

/- Memory that differs from memZero in exactly one byte, at address 140
   (the stack base of slot 1 under sb0). -/
def memC : Nat → Nat := fun a => if a = 140 then 1 else 0

/- A state as left by boot: empty critical section, timer compare interrupt
   armed, global interrupt enable set. -/
def bootCrit : OsState :=
  { procs := [], currentProc := 0, SP := 0, mem := memZero, sreg := 0b10000000,
    ocie2a := true, criticalSectionCount := 0, halted := none, returned := false }

def busyProc : Process :=
  { program := 1, priority := 1, state := ProcessState.OS_PS_READY, sp := 135, checksum := 0 }

def sFull : OsState := { bootCrit with procs := [busyProc, busyProc, busyProc] }

def sOneFree : OsState := { bootCrit with procs := [defaultProcess] }

def sTwoFree : OsState := { bootCrit with procs := [defaultProcess, defaultProcess] }

/- A two-slot table: slot 1 is populated with stored stack pointer 175
   (= sb0 1 + 35, a freshly created process). -/
def procsC : List Process :=
  [defaultProcess,
   { program := 1, priority := 1, state := ProcessState.OS_PS_READY, sp := 175, checksum := 0 }]

/- A mid-run state for the ISR: slot 0 is RUNNING with stored checksum 7,
   although the checksum of its stack bytes recomputes to 0 — a detectable
   corruption; slot 1 is READY.  The SP field holds the hardware stack
   pointer of the suspended process 0 after saveContext. -/
def sIsr : OsState :=
  { bootCrit with
    procs :=
      [{ program := 1, priority := 1, state := ProcessState.OS_PS_RUNNING, sp := 50, checksum := 7 },
       { program := 2, priority := 1, state := ProcessState.OS_PS_READY, sp := 175, checksum := 0 }],
    currentProc := 0, SP := 50 }

/- A simple in-range strategy (successor modulo table size), standing in for
   the external strategy bodies in concrete runs. -/
def selRR : List Process → Nat → Nat := fun tbl c => (c + 1) % tbl.length

/- ------------------------------------------------------------------ -/
/- Helper lemmas. -/

theorem length_setSlot (procs : List Process) (i : Nat) (p : Process) :
    (setSlot procs i p).length = procs.length := by
  simp [setSlot]

theorem getSlot_setSlot_self (procs : List Process) (i : Nat) (p : Process)
    (h : i < procs.length) : getSlot (setSlot procs i p) i = p := by
  unfold getSlot setSlot
  have h2 : i < (procs.set i p).length := by simpa using h
  rw [List.getD_eq_getElem _ _ h2, List.getElem_set]
  simp

theorem getSlot_setSlot_ne (procs : List Process) (i j : Nat) (p : Process)
    (h : i ≠ j) : getSlot (setSlot procs i p) j = getSlot procs j := by
  unfold getSlot setSlot
  by_cases hj : j < procs.length
  · have h2 : j < (procs.set i p).length := by simpa using hj
    rw [List.getD_eq_getElem _ _ h2, List.getD_eq_getElem _ _ hj, List.getElem_set]
    simp [h]
  · have h3 : (procs.set i p).length ≤ j := by simpa using Nat.le_of_not_lt hj
    rw [List.getD_eq_default _ _ h3, List.getD_eq_default _ _ (Nat.le_of_not_lt hj)]

theorem checksumLoopAux_eq (mem : Nat → Nat) :
    ∀ n p acc, checksumLoopAux mem p acc n = acc ^^^ xorFoldAux mem p n := by
  intro n
  induction n with
  | zero => intro p acc; simp [checksumLoopAux, xorFoldAux]
  | succ k ih =>
    intro p acc
    simp only [checksumLoopAux, xorFoldAux]
    rw [ih, Nat.xor_assoc]

theorem xorFoldAux_congr (m m2 : Nat → Nat) :
    ∀ n a, (∀ x, a ≤ x → x < a + n → m x = m2 x) →
    xorFoldAux m a n = xorFoldAux m2 a n := by
  intro n
  induction n with
  | zero => intro a _; rfl
  | succ k ih =>
    intro a h
    simp only [xorFoldAux]
    rw [h a (Nat.le_refl a) (by omega), ih (a + 1) (fun x hx1 hx2 => h x (by omega) (by omega))]

theorem stackChecksumCore_window (mem : Nat → Nat) (sp : Nat) (h : 35 ≤ sp) :
    stackChecksumCore mem sp = xorFold mem (sp - 34) sp := by
  obtain ⟨k, rfl⟩ := Nat.exists_eq_add_of_le h
  unfold stackChecksumCore xorFold
  have h1 : 35 + k - 35 = k := by omega
  rw [h1]
  have h2 : 35 + k - k = 35 := by omega
  have h3 : 35 + k - 34 = k + 1 := by omega
  rw [h2, h3]
  have h4 : 35 + k - (k + 1) = 34 := by omega
  rw [h4, checksumLoopAux_eq]
  rw [show xorFoldAux mem k 35 = mem k ^^^ xorFoldAux mem (k + 1) 34 from rfl]
  rw [← Nat.xor_assoc, Nat.xor_self, Nat.zero_xor]

theorem findFreeAux_none_of_busy (procs : List Process)
    (h : ∀ i, i < procs.length → (getSlot procs i).state ≠ ProcessState.OS_PS_UNUSED) :
    ∀ n g, findFreeAux procs g n = none := by
  intro n
  induction n with
  | zero => intro g; rfl
  | succ k ih =>
    intro g
    unfold findFreeAux
    cases hg : procs[g]? with
    | none => rfl
    | some p =>
      have hlt : g < procs.length := (List.getElem?_eq_some.mp hg).1
      have hpe : getSlot procs g = p := by simp [getSlot, List.getD, hg]
      have hne : ¬p.state = ProcessState.OS_PS_UNUSED := by
        rw [← hpe]; exact h g hlt
      show (if p.state = ProcessState.OS_PS_UNUSED then some g
            else findFreeAux procs (g + 1) k) = none
      rw [if_neg hne]
      exact ih (g + 1)

theorem findFreeSlotFrom_none_of_busy (procs : List Process) (start : Nat)
    (h : ∀ i, i < procs.length → (getSlot procs i).state ≠ ProcessState.OS_PS_UNUSED) :
    findFreeSlotFrom procs start = none :=
  findFreeAux_none_of_busy procs h _ start

theorem leaveCriticalSection_ocie2a (s : OsState) :
    (os_leaveCriticalSection s).ocie2a = s.ocie2a := by
  by_cases h : s.criticalSectionCount = 0 <;> simp [os_leaveCriticalSection, h]

theorem leaveCriticalSection_count (s : OsState) :
    (os_leaveCriticalSection s).criticalSectionCount = s.criticalSectionCount - 1 := by
  by_cases h : s.criticalSectionCount = 0 <;> simp [os_leaveCriticalSection, h]

theorem leaveCriticalSection_id_of_zero (s : OsState) (h : s.criticalSectionCount = 0) :
    os_leaveCriticalSection s = s := by
  unfold os_leaveCriticalSection
  rw [if_pos h]
  cases s
  simp_all

theorem enterIter_count (n : Nat) (s : OsState) (h : s.criticalSectionCount = 0) :
    ((os_enterCriticalSection^[n]) s).criticalSectionCount = n % 256 := by
  induction n with
  | zero => simpa using h
  | succ k ih =>
    rw [Function.iterate_succ_apply']
    show (((os_enterCriticalSection^[k]) s).criticalSectionCount + 1) % 256 = (k + 1) % 256
    rw [ih, Nat.mod_add_mod]

theorem enterIter_ocie2a (n : Nat) (s : OsState) :
    ((os_enterCriticalSection^[n]) s).ocie2a = s.ocie2a := by
  induction n with
  | zero => rfl
  | succ k ih => rw [Function.iterate_succ_apply']; exact ih

theorem leaveIter_count (n : Nat) (s : OsState) :
    ((os_leaveCriticalSection^[n]) s).criticalSectionCount = s.criticalSectionCount - n := by
  induction n with
  | zero => simp
  | succ k ih =>
    rw [Function.iterate_succ_apply', leaveCriticalSection_count, ih]
    omega

theorem leaveIter_ocie2a (n : Nat) (s : OsState) :
    ((os_leaveCriticalSection^[n]) s).ocie2a = s.ocie2a := by
  induction n with
  | zero => rfl
  | succ k ih => rw [Function.iterate_succ_apply', leaveCriticalSection_ocie2a]; exact ih

theorem isrBookkeep_length (isb : Nat) (s : OsState) :
    (isrBookkeep isb s).procs.length = s.procs.length := by
  simp [isrBookkeep, length_setSlot]

theorem isrBookkeep_currentProc (isb : Nat) (s : OsState) :
    (isrBookkeep isb s).currentProc = s.currentProc := rfl

theorem getSlot_isrBookkeep_ne (isb : Nat) (s : OsState) (i : Nat)
    (h : i ≠ s.currentProc) :
    getSlot (isrBookkeep isb s).procs i = getSlot s.procs i := by
  show getSlot (setSlot _ s.currentProc _) i = getSlot s.procs i
  rw [getSlot_setSlot_ne _ _ _ _ (fun e => h (e.symm)),
      getSlot_setSlot_ne _ _ _ _ (fun e => h (e.symm)),
      getSlot_setSlot_ne _ _ _ _ (fun e => h (e.symm))]

theorem getSlot_isrBookkeep_self_state (isb : Nat) (s : OsState)
    (h : s.currentProc < s.procs.length) :
    (getSlot (isrBookkeep isb s).procs s.currentProc).state = ProcessState.OS_PS_READY := by
  show (getSlot (setSlot _ s.currentProc _) s.currentProc).state = ProcessState.OS_PS_READY
  rw [getSlot_setSlot_self]
  · show (getSlot (setSlot _ s.currentProc _) s.currentProc).state = ProcessState.OS_PS_READY
    rw [getSlot_setSlot_self]
    simpa [length_setSlot] using h
  · simpa [length_setSlot] using h

/- ------------------------------------------------------------------ -/
/- Claim theorems. -/

/-- Claim C4 (code bug): the spec says the timer-compare interrupt enable bit
OCIE2A is cleared whenever the critical-section counter is positive.  In the
source both the masking in os_enterCriticalSection and the re-arming in
os_leaveCriticalSection are TODO comments: neither function ever writes the
bit.  Hence ocie2a is invariant under both calls, and the reachable state
directly after one os_enterCriticalSection from the boot state has counter 1
with OCIE2A still set. -/
theorem C4_enter_never_masks_timer :
    (∀ s : OsState, (os_enterCriticalSection s).ocie2a = s.ocie2a) ∧
    (∀ s : OsState, (os_leaveCriticalSection s).ocie2a = s.ocie2a) ∧
    0 < (os_enterCriticalSection bootCrit).criticalSectionCount ∧
    (os_enterCriticalSection bootCrit).ocie2a = true :=
  ⟨fun _ => rfl, fun s => leaveCriticalSection_ocie2a s, by decide, by decide⟩

/-- Claim C8 (confirmed): starting from a zero critical-section counter with
the scheduler timer armed, N calls of os_enterCriticalSection followed by N
calls of os_leaveCriticalSection bring the counter back to 0 and leave the
timer armed (the code never touches OCIE2A, so it stays armed throughout);
and a further os_leaveCriticalSection on a zero counter is the identity. -/
theorem C8_enter_leave_balanced (n : Nat) (s : OsState)
    (h0 : s.criticalSectionCount = 0) (ha : s.ocie2a = true) :
    ((os_leaveCriticalSection^[n]) ((os_enterCriticalSection^[n]) s)).criticalSectionCount = 0 ∧
    ((os_leaveCriticalSection^[n]) ((os_enterCriticalSection^[n]) s)).ocie2a = true ∧
    (∀ t : OsState, t.criticalSectionCount = 0 → os_leaveCriticalSection t = t) := by
  refine ⟨?_, ?_, fun t ht => leaveCriticalSection_id_of_zero t ht⟩
  · rw [leaveIter_count, enterIter_count n s h0]
    have := Nat.mod_le n 256
    omega
  · rw [leaveIter_ocie2a, enterIter_ocie2a, ha]

/-- Witness for C8 at N = 2 and the boot state. -/
theorem C8_enter_leave_balanced_witness :
    (bootCrit.criticalSectionCount = 0 ∧ bootCrit.ocie2a = true) ∧
    (((os_leaveCriticalSection^[2]) ((os_enterCriticalSection^[2]) bootCrit)).criticalSectionCount
        = 0 ∧
     ((os_leaveCriticalSection^[2]) ((os_enterCriticalSection^[2]) bootCrit)).ocie2a = true ∧
     (∀ t : OsState, t.criticalSectionCount = 0 → os_leaveCriticalSection t = t)) :=
  ⟨⟨rfl, rfl⟩, C8_enter_leave_balanced 2 bootCrit rfl rfl⟩

/-- Claim C9 (confirmed): for every strategy tag outside the five known enum
values, the factory switch falls through to its default branch and returns
the Even select function, so scheduling under an unknown tag is the same as
under OS_SS_EVEN. -/
theorem C9_unknown_tag_falls_back_to_even (t : Nat)
    (h0 : t ≠ OS_SS_EVEN) (h1 : t ≠ OS_SS_RANDOM) (h2 : t ≠ OS_SS_RUN_TO_COMPLETION)
    (h3 : t ≠ OS_SS_ROUND_ROBIN) (h4 : t ≠ OS_SS_INACTIVE_AGING) :
    schedulingStrategyFnFactory t = StrategyFnPtr.os_Scheduler_Even ∧
    schedulingStrategyFnFactory t = schedulingStrategyFnFactory OS_SS_EVEN := by
  unfold schedulingStrategyFnFactory
  rw [if_neg h0, if_neg h1, if_neg h2, if_neg h3, if_neg h4]
  exact ⟨rfl, rfl⟩

/-- Witness for C9 at the unknown tag 99. -/
theorem C9_unknown_tag_falls_back_to_even_witness :
    (99 ≠ OS_SS_EVEN ∧ 99 ≠ OS_SS_RANDOM ∧ 99 ≠ OS_SS_RUN_TO_COMPLETION ∧
     99 ≠ OS_SS_ROUND_ROBIN ∧ 99 ≠ OS_SS_INACTIVE_AGING) ∧
    (schedulingStrategyFnFactory 99 = StrategyFnPtr.os_Scheduler_Even ∧
     schedulingStrategyFnFactory 99 = schedulingStrategyFnFactory OS_SS_EVEN) :=
  ⟨by decide,
   C9_unknown_tag_falls_back_to_even 99 (by decide) (by decide) (by decide)
     (by decide) (by decide)⟩

/-- Claim C1 (code bug): the spec says that on every tick, before control
returns to any process, the stored checksum of the switched-out process is
compared against a fresh recomputation and a mismatch halts the kernel.  In
the source the ISR only STORES a fresh checksum for the switched-out process
(overwriting the stored one without comparing), and its sole comparison
stands after restoreContext, so it can never run before control returns.
Evaluated at a state whose slot 0 has stored checksum 7 while its stack
recomputes to 0 (a detectable mismatch): the ISR returns control to a
process without halting and the mismatch is erased by the overwrite. -/
theorem C1_isr_checksum_mismatch_not_caught :
    (getSlot sIsr.procs 0).checksum ≠ stackChecksumCore sIsr.mem sIsr.SP ∧
    (isrTick selRR 60 sIsr).halted = none ∧
    (isrTick selRR 60 sIsr).returned = true ∧
    (getSlot (isrTick selRR 60 sIsr).procs 0).checksum
      = stackChecksumCore sIsr.mem sIsr.SP := by
  refine ⟨by decide, by decide, by decide, by decide⟩

/-- Claim C5 (confirmed): when no slot is UNUSED, the search loop of os_exec
runs off the end of the table and os_exec returns INVALID_PROCESS (none)
having modified neither the process table nor the stack memory.  The value
start is the unspecified initial value of the uninitialised loop variable of
the source, constrained to lie inside the table (any larger value would be
an out-of-bounds read in the C). -/
theorem C5_exec_full_table_unchanged (stackBottom : Nat → Nat)
    (pcReg start program priority : Nat) (s : OsState)
    (hstart : start < s.procs.length)
    (hbusy : ∀ i, i < s.procs.length →
      (getSlot s.procs i).state ≠ ProcessState.OS_PS_UNUSED) :
    (os_exec stackBottom pcReg start program priority s).fst = none ∧
    (os_exec stackBottom pcReg start program priority s).snd.procs = s.procs ∧
    (os_exec stackBottom pcReg start program priority s).snd.mem = s.mem := by
  have hnone : findFreeSlotFrom (os_enterCriticalSection s).procs start = none :=
    findFreeSlotFrom_none_of_busy _ start hbusy
  have hres : os_exec stackBottom pcReg start program priority s
      = (none, os_enterCriticalSection s) := by
    simp only [os_exec, hnone]
  rw [hres]
  exact ⟨rfl, rfl, rfl⟩

/-- Witness for C5 on a full three-slot table. -/
theorem C5_exec_full_table_unchanged_witness :
    (0 < sFull.procs.length ∧
     ∀ i, i < sFull.procs.length →
       (getSlot sFull.procs i).state ≠ ProcessState.OS_PS_UNUSED) ∧
    ((os_exec sb0 0 0 5 7 sFull).fst = none ∧
     (os_exec sb0 0 0 5 7 sFull).snd.procs = sFull.procs ∧
     (os_exec sb0 0 0 5 7 sFull).snd.mem = sFull.mem) :=
  ⟨⟨by decide, by decide⟩,
   C5_exec_full_table_unchanged sb0 0 0 5 7 sFull (by decide) (by decide)⟩

/-- Claim C3 (code bug): the spec says every os_exec call leaves the critical
section before returning, so the nesting counter is unchanged across the
call.  In the source both INVALID paths (slot exhaustion and NULL program)
return without calling os_leaveCriticalSection.  Evaluated on a full table
and on a NULL program: both calls return INVALID with the counter raised
from 0 to 1. -/
theorem C3_exec_invalid_leaks_critical_section :
    (sFull.criticalSectionCount = 0 ∧
     (os_exec sb0 0 0 5 7 sFull).fst = none ∧
     (os_exec sb0 0 0 5 7 sFull).snd.criticalSectionCount = 1) ∧
    (sOneFree.criticalSectionCount = 0 ∧
     (os_exec sb0 0 0 0 7 sOneFree).fst = none ∧
     (os_exec sb0 0 0 0 7 sOneFree).snd.criticalSectionCount = 1) := by
  refine ⟨⟨by decide, by decide, by decide⟩, ⟨by decide, by decide, by decide⟩⟩

/-- Claim C6 (code bug): the spec says the free-slot scan starts at slot 0
and returns the smallest UNUSED index, but the loop variable of the source
is read uninitialised, so the scan starts from an unspecified value.  With
both slots 0 and 1 UNUSED: if the garbage start value is 1 the call returns
slot 1 although slot 0 is the smallest UNUSED slot, while a start value of 0
returns slot 0 as the claim describes. -/
theorem C6_exec_scan_start_uninitialised :
    (getSlot sTwoFree.procs 0).state = ProcessState.OS_PS_UNUSED ∧
    (getSlot sTwoFree.procs 1).state = ProcessState.OS_PS_UNUSED ∧
    (os_exec sb0 0 1 5 7 sTwoFree).fst = some 1 ∧
    (os_exec sb0 0 0 5 7 sTwoFree).fst = some 0 := by
  refine ⟨by decide, by decide, by decide, by decide⟩

/-- Claim C2 counterexample: slot 1 was freshly created, so its stored stack
pointer 175 is exactly 35 above its stack base sb0 1 = 140.  Even so the
returned checksum differs from the XOR fold over the bytes from the base to
the stack pointer, because the byte at the base enters the XOR twice (as the
initial accumulator and again in the first loop iteration) and cancels; for
the same reason changing that single byte (memC and memZero differ exactly
at address 140) leaves the returned checksum unchanged. -/
theorem C2_checksum_counterexample :
    sb0 1 = 140 ∧ (getSlot procsC 1).sp = 175 ∧
    os_getStackChecksum procsC memC 1 ≠ xorFold memC (sb0 1) (getSlot procsC 1).sp ∧
    memC 140 ≠ memZero 140 ∧
    os_getStackChecksum procsC memC 1 = os_getStackChecksum procsC memZero 1 := by
  refine ⟨by decide, by decide, by decide, by decide, by decide⟩

/-- Claim C2 as amended: os_getStackChecksum(pid) equals the XOR fold over
the 34 bytes at addresses sp - 34 .. sp - 1, where sp is the stored stack
pointer of the slot; the byte at sp - 35 is XORed in twice and cancels, so a
change of that byte never changes the returned checksum. -/
theorem C2_checksum_window (procs : List Process) (mem : Nat → Nat) (pid v : Nat)
    (h : 35 ≤ (getSlot procs pid).sp) :
    os_getStackChecksum procs mem pid
      = xorFold mem ((getSlot procs pid).sp - 34) (getSlot procs pid).sp ∧
    os_getStackChecksum procs
        (fun a => if a = (getSlot procs pid).sp - 35 then v else mem a) pid
      = os_getStackChecksum procs mem pid := by
  unfold os_getStackChecksum
  constructor
  · exact stackChecksumCore_window mem _ h
  · rw [stackChecksumCore_window _ _ h, stackChecksumCore_window _ _ h]
    unfold xorFold
    apply xorFoldAux_congr
    intro x hx1 hx2
    have hxne : x ≠ (getSlot procs pid).sp - 35 := by omega
    simp [hxne]

/-- Witness for C2 as amended, on the table procsC at slot 1. -/
theorem C2_checksum_window_witness :
    35 ≤ (getSlot procsC 1).sp ∧
    (os_getStackChecksum procsC memC 1
       = xorFold memC ((getSlot procsC 1).sp - 34) (getSlot procsC 1).sp ∧
     os_getStackChecksum procsC
         (fun a => if a = (getSlot procsC 1).sp - 35 then 5 else memC a) 1
       = os_getStackChecksum procsC memC 1) :=
  ⟨by decide, C2_checksum_window procsC memC 1 5 (by decide)⟩

/-- Claim C7 (code bug): the spec says the two-byte entry address of the new
program is seeded at the stack base.  The source writes the low byte of the
symbol PC and then ((uint8_t)PC) >> 8 — the cast truncates to 8 bits BEFORE
the shift, so the second byte is always 0, and the value comes from PC, not
from the program argument.  Evaluated with entry address 0x1234 (granting
PC = program): the seeded bytes are 0x34 and 0x00, which encode 0x1234 in
neither byte order; and for EVERY value of PC the second seeded byte is 0. -/
theorem C7_exec_seeds_wrong_entry_address :
    (os_exec sb0 0x1234 0 0x1234 1 sOneFree).fst = some 0 ∧
    (os_exec sb0 0x1234 0 0x1234 1 sOneFree).snd.mem (sb0 0) = 0x34 ∧
    (os_exec sb0 0x1234 0 0x1234 1 sOneFree).snd.mem (sb0 0 + 1) = 0 ∧
    ¬((os_exec sb0 0x1234 0 0x1234 1 sOneFree).snd.mem (sb0 0) = 0x12 ∧
      (os_exec sb0 0x1234 0 0x1234 1 sOneFree).snd.mem (sb0 0 + 1) = 0x34) ∧
    ¬((os_exec sb0 0x1234 0 0x1234 1 sOneFree).snd.mem (sb0 0) = 0x34 ∧
      (os_exec sb0 0x1234 0 0x1234 1 sOneFree).snd.mem (sb0 0 + 1) = 0x12) ∧
    ∀ pcv : Nat, (os_exec sb0 pcv 0 5 1 sOneFree).snd.mem (sb0 0 + 1) = 0 := by
  refine ⟨by decide, by decide, by decide, by decide, by decide, ?_⟩
  intro pcv
  show ((pcv % 256) >>> 8) % 256 = 0
  have h1 : pcv % 256 < 256 := Nat.mod_lt _ (by norm_num)
  have h2 : (pcv % 256) >>> 8 = 0 := by
    rw [Nat.shiftRight_eq_div_pow]
    exact Nat.div_eq_of_lt (by norm_num; exact h1)
  rw [h2]

/-- Claim C10 (confirmed): if exactly one slot is RUNNING and currentProc
indexes it, then after one ISR tick (previous slot marked READY, successor
chosen by the active strategy applied to the updated table, chosen slot
marked RUNNING) the same invariant holds and currentProc equals the chosen
slot.  The strategy bodies live in a file not among the sources, so the
select function is a parameter, assumed only to return an in-range pid. -/
theorem C10_isr_preserves_single_running
    (select : List Process → Nat → Nat) (isb : Nat) (s : OsState)
    (hsel : ∀ tbl c, 0 < tbl.length → select tbl c < tbl.length)
    (hinv : SingleRunningInv s) :
    SingleRunningInv (isrTick select isb s) ∧
    (isrTick select isb s).currentProc = isrChosen select isb s := by
  obtain ⟨hcur, hstates⟩ := hinv
  have hlen0 : 0 < s.procs.length := Nat.lt_of_le_of_lt (Nat.zero_le _) hcur
  have hlenB : (isrBookkeep isb s).procs.length = s.procs.length := isrBookkeep_length isb s
  have hnext : isrChosen select isb s < s.procs.length := by
    have hx := hsel (isrBookkeep isb s).procs (isrBookkeep isb s).currentProc
      (by rw [hlenB]; exact hlen0)
    rw [hlenB] at hx
    exact hx
  have htickp : (isrTick select isb s).procs
      = setSlot (isrBookkeep isb s).procs (isrChosen select isb s)
          ({ getSlot (isrBookkeep isb s).procs (isrChosen select isb s) with
              state := ProcessState.OS_PS_RUNNING }) := rfl
  have htickc : (isrTick select isb s).currentProc = isrChosen select isb s := rfl
  constructor
  · unfold SingleRunningInv
    constructor
    · rw [htickc, htickp, length_setSlot, hlenB]
      exact hnext
    · intro i hi
      rw [htickp, length_setSlot, hlenB] at hi
      rw [htickc, htickp]
      by_cases hin : i = isrChosen select isb s
      · subst hin
        rw [getSlot_setSlot_self _ _ _ (by rw [hlenB]; exact hnext)]
        simp
      · rw [getSlot_setSlot_ne _ _ _ _ (fun e => hin e.symm)]
        by_cases hic : i = s.currentProc
        · subst hic
          rw [getSlot_isrBookkeep_self_state isb s hcur]
          exact ⟨fun hr => absurd hr (by decide), fun hc => absurd hc hin⟩
        · rw [getSlot_isrBookkeep_ne isb s i hic]
          have h2 := hstates i hi
          exact ⟨fun hr => absurd (h2.mp hr) hic, fun hc => absurd hc hin⟩
  · exact htickc

/-- Witness for C10 on a two-slot table with slot 0 RUNNING, under the
successor-modulo strategy. -/
theorem C10_isr_preserves_single_running_witness :
    ((∀ tbl c, 0 < tbl.length → selRR tbl c < tbl.length) ∧ SingleRunningInv sIsr) ∧
    (SingleRunningInv (isrTick selRR 60 sIsr) ∧
     (isrTick selRR 60 sIsr).currentProc = isrChosen selRR 60 sIsr) :=
  ⟨⟨fun _ _ h => Nat.mod_lt _ h, by unfold SingleRunningInv; decide⟩,
   C10_isr_preserves_single_running selRR 60 sIsr (fun _ _ h => Nat.mod_lt _ h)
     (by unfold SingleRunningInv; decide)⟩

end SPOS
